import Mathlib

/-!
Shallow embedding of the gc5 geocache aggregation service (Rust) and proofs
about its tile geometry, detail parsing, caching and fetch orchestration.

Modelling conventions:
* Rust `u32` arithmetic is modelled on `Nat` with explicit `% 2^32` where the
  source can wrap (release-build semantics; a debug build would panic on the
  same inputs — noted at each definition).
* Rust `f64` values are modelled as exact rationals (`ℚ`); the transcendental
  functions (`sin`, `cos`, `asin`, `atan2`) of the standard library and the
  closest-point / geodesic-distance routines of the `geo` crate are external
  collaborators and are taken as parameters of the definitions that call them.
* Database tables are association lists, SQL upsert-by-primary-key is an
  explicit `upsert`, and `Utc::now()` is a threaded integer timestamp
  (seconds).
-/

set_option maxHeartbeats 1000000

/-- One slippy-map tile, `Tile {x: u32, y: u32, z: u8}`
(src/src/gcgeo/tile.rs:5-10). -/
structure Tile where
  x : ℕ
  y : ℕ
  z : ℕ
deriving DecidableEq, Repr

/-- A latitude/longitude pair, `Coordinate {lat: f64, lon: f64}`
(src/src/gcgeo/coordinate.rs:5-9); the `f64` fields are modelled as exact
rationals. -/
structure Coordinate where
  lat : ℚ
  lon : ℚ
deriving DecidableEq, Repr

/-- 2^32, the modulus of Rust `u32` arithmetic. -/
def U32 : ℕ := 4294967296

/-- A Rust inclusive range `lo..=hi` as the list it iterates: empty when
`lo > hi`. -/
def rangeIncl (lo hi : ℕ) : List ℕ :=
  List.range' lo (hi + 1 - lo)

/-- Embeds `Tile::around` (src/src/gcgeo/tile.rs:57-65): the nested loops
`for x in self.x - 1..=self.x + 1 { for y in self.y - 1..=self.y + 1 }` on
`u32`.  The subtraction wraps modulo 2^32 (release semantics; a debug build
panics when `x` or `y` is 0), and an inclusive range whose start exceeds its
end iterates nothing. -/
def Tile.around (t : Tile) : List Tile :=
  (rangeIncl ((t.x + (U32 - 1)) % U32) ((t.x + 1) % U32)).flatMap fun x =>
    (rangeIncl ((t.y + (U32 - 1)) % U32) ((t.y + 1) % U32)).map fun y =>
      ⟨x, y, t.z⟩

/-- `Tile::DEFAULT_ZOOM` (src/src/gcgeo/tile.rs:19 and src/geo/src/tile.rs:17):
the zoom used by `Tile::near`. -/
def Tile.DEFAULT_ZOOM : ℕ := 12

/-- Embeds the tile-enumeration loops of `Tile::near`
(src/src/gcgeo/tile.rs:67-87).  In the source the two corner tiles are
`from_coordinates(coordinate.project(radius, 315.0), DEFAULT_ZOOM)` and
`from_coordinates(coordinate.project(radius, 135.0), DEFAULT_ZOOM)`; that
floating-point corner computation is abstracted by passing the two corner
tiles as arguments (`from_coordinates` always returns a tile whose `z` is the
zoom it is given, so the corners always carry `z = DEFAULT_ZOOM`).  The
source inserts into a `HashSet` and collects; the loop produces no duplicate
`(x, y)` pair, so the list below has the same membership.  The sibling
implementation src/geo/src/tile.rs:35-55 differs in using exclusive ranges
`top_left_tile.x..bottom_right_tile.x`. -/
def Tile.near (top_left_tile bottom_right_tile : Tile) : List Tile :=
  (rangeIncl top_left_tile.x bottom_right_tile.x).flatMap fun x =>
    (rangeIncl top_left_tile.y bottom_right_tile.y).map fun y =>
      ⟨x, y, Tile.DEFAULT_ZOOM⟩

/-- Rust `u32` left shift `a << n`: the shift amount is masked modulo the bit
width (release semantics) and bits shifted beyond bit 31 are discarded. -/
def u32shl (a n : ℕ) : ℕ :=
  (a * 2 ^ (n % 32)) % U32

/-- Embeds `Tile::quadkey` (src/src/gcgeo/tile.rs:49-55):
`result |= (x & 1 << i) << i | (y & 1 << i) << (i + 1)` for `i in 0..z`,
computed on `u32`. -/
def Tile.quadkey (t : Tile) : ℕ :=
  (List.range t.z).foldl
    (fun result i =>
      result ||| (u32shl (t.x &&& u32shl 1 i) i ||| u32shl (t.y &&& u32shl 1 i) (i + 1)))
    0

/-- The spec's description of `quadkey`: the integer formed by interleaving
the low `z` bits of `x` and `y`, bit `i` of `x` at position `2*i` and bit `i`
of `y` at position `2*i + 1`.  Stated from the spec's words for comparison
with `Tile.quadkey` above. -/
def interleaveBits (x y : ℕ) : ℕ → ℕ
  | 0 => 0
  | n + 1 =>
      interleaveBits x y n
        + (x.testBit n).toNat * 2 ^ (2 * n)
        + (y.testBit n).toNat * 2 ^ (2 * n + 1)

/-! ## Coordinate projection (src/src/gcgeo/coordinate.rs) -/

/-- The transcendental `f64` functions used by `Coordinate::project`.  Their
values are not exactly representable, so they are parameters of the model; a
faithful instance returns `atan2` values in `(-π, π]` and `asin` values in
`[-π/2, π/2]`. -/
structure FloatTrig where
  sin : ℚ → ℚ
  cos : ℚ → ℚ
  asin : ℚ → ℚ
  atan2 : ℚ → ℚ → ℚ

/-- The exact rational value of the `f64` constant `std::f64::consts::PI`. -/
def f64PI : ℚ := 884279719003555 / 281474976710656

/-- Truncation toward zero, the rounding used by Rust's `%` on `f64`. -/
def ratTrunc (q : ℚ) : ℤ := if q < 0 then ⌈q⌉ else ⌊q⌋

/-- Rust `a % b` on `f64`: the remainder of the truncating division.  `f64`
arithmetic is modelled exactly on `ℚ`. -/
def rustRem (a b : ℚ) : ℚ := a - b * (ratTrunc (a / b) : ℤ)

/-- `Coordinate::EARTH_RADIUS` (src/src/gcgeo/coordinate.rs:18), as the `f64`
it is cast to. -/
def EARTH_RADIUS : ℚ := 6371000

/-- Embeds `Coordinate::project` (src/src/gcgeo/coordinate.rs:20-45).  The
structure of the computation is source-faithful: the `(x + 540) % 360 - 180`
normalisation is applied to `lon_rad2` — the longitude while still in
radians — and only afterwards is `lon_rad2 * 180 / PI` taken, exactly as in
the source. -/
def Coordinate.project (trig : FloatTrig) (c : Coordinate) (distance bearing : ℚ) : Coordinate :=
  let lat_rad := c.lat * f64PI / 180
  let lon_rad := c.lon * f64PI / 180
  let bearing_rad := bearing * f64PI / 180
  let lat_rad2 := trig.asin (trig.sin lat_rad * trig.cos (distance / EARTH_RADIUS)
    + trig.cos lat_rad * trig.sin (distance / EARTH_RADIUS) * trig.cos bearing_rad)
  let lon_rad2 := lon_rad + trig.atan2
    (trig.sin bearing_rad * trig.sin (distance / EARTH_RADIUS) * trig.cos lat_rad)
    (trig.cos (distance / EARTH_RADIUS) - trig.sin lat_rad * trig.sin lat_rad2)
  let lon_rad2n := rustRem (lon_rad2 + 540) 360 - 180
  ⟨lat_rad2 * 180 / f64PI, lon_rad2n * 180 / f64PI⟩

/-- A concrete stand-in for the `f64` trigonometric functions at the inputs of
the counterexample below: `sin` is only applied where the real `sin` of the
input is within `1/10` of `0`, `cos` within `1/10` of `1`, and `atan2` is
applied to arguments near `(sin 0.1, cos 0.1)` where the real `atan2` returns
`0.1` up to `f64` rounding; any faithful instance returns values in the
assumed ranges and yields the same conclusion. -/
def trigStub : FloatTrig := ⟨fun _ => 0, fun _ => 1, fun _ => 0, fun _ _ => 1 / 10⟩

/-! ## Track model (src/geo/src/track.rs) and planner filters (src/src/track.rs) -/

/-- `u16::MAX`. -/
def u16MAX : ℕ := 65535

/-- The exact rational value of `f64::MAX`, produced by `Track::near` when the
`geo` crate reports no closest point (empty polyline). -/
def f64MAX : ℚ := (2 ^ 53 - 1) * 2 ^ 971

/-- Rust `as u16` applied to an `f64`: a saturating cast — negative values
give 0, values of 65536 or more give 65535, and anything in between is
truncated toward zero.  (`NaN`, which casts to 0, has no counterpart in the
exact-rational model.) -/
def f64_as_u16 (x : ℚ) : ℕ := if x < 0 then 0 else min 65535 ⌊x⌋.toNat

/-- The `geo` crate's `Closest` result of `LineString::closest_point`: for an
empty polyline it is `Indeterminate`. -/
inductive Closest where
  | singlePoint (p : Coordinate)
  | intersection (p : Coordinate)
  | indeterminate

/-- Embeds `Track::near` (src/geo/src/track.rs:41-51).  The `geo` crate's
closest-point search over the track's polyline (`closestF`) and its geodesic
distance (`geod`) are external collaborators passed as parameters; the match
and the final `distance as u16` cast mirror the source. -/
def Track.near (closestF : Coordinate → Closest) (geod : Coordinate → Coordinate → ℚ)
    (other : Coordinate) : ℕ :=
  f64_as_u16 (match closestF other with
    | Closest.singlePoint p => geod p other
    | Closest.intersection p => geod p other
    | Closest.indeterminate => f64MAX)

/-- A GPX `<trkpt>` as the `geo` point it is turned into: `x` is the
longitude, `y` the latitude. -/
structure GpxPoint where
  x : ℚ
  y : ℚ
deriving DecidableEq, Repr

/-- One `<trkseg>`. -/
structure GpxSegment where
  points : List GpxPoint
deriving DecidableEq, Repr

/-- One `<trk>`. -/
structure GpxTrack where
  segments : List GpxSegment
deriving DecidableEq, Repr

/-- A parsed GPX document. -/
structure Gpx where
  tracks : List GpxTrack
deriving DecidableEq, Repr

/-- `gpx::errors::GpxError`: a parse failure of the GPX reader. -/
inductive GpxError where
  | parse
deriving DecidableEq, Repr

/-- `std::io::Error`, the (unused) error type of `Track::from_gpx`. -/
inductive IoError where
  | ioFailure
deriving DecidableEq, Repr

/-- The outcome of running Rust code that may panic: `panics` models a call
of `.unwrap()` on an `Err`, which aborts the process. -/
inductive PanicOr (α : Type) where
  | panics
  | ok (a : α)
deriving DecidableEq, Repr

/-- The `Track` struct of src/geo/src/track.rs:7-11. -/
structure Track where
  tiles : List Tile
  waypoints : List Coordinate
  line_string : List GpxPoint
deriving DecidableEq, Repr

/-- Embeds `Track::from_gpx` (src/geo/src/track.rs:14-39).  `gpxRead` is the
outcome of `gpx::read(io)`; the source calls `.unwrap()` on it, so an `Err`
panics instead of being returned through the function's `Result` type.
`tileOf` abstracts the floating-point `Tile::from_coordinates`; the `HashSet`
collection of tiles is modelled by `dedup` (set semantics).  Waypoints are
flattened in document order: tracks, then segments, then points. -/
def Track.from_gpx (tileOf : ℚ → ℚ → ℕ → Tile) (gpxRead : Except GpxError Gpx) :
    PanicOr (Except IoError Track) :=
  match gpxRead with
  | Except.error _ => PanicOr.panics
  | Except.ok gpx =>
    let waypoints := ((gpx.tracks.flatMap fun t => t.segments).flatMap fun s => s.points).map
      fun p => Coordinate.mk p.y p.x
    let tiles := ((waypoints.map fun c => tileOf c.lat c.lon 14).flatMap Tile.around).dedup
    let line_string := waypoints.map fun c => GpxPoint.mk c.lon c.lat
    PanicOr.ok (Except.ok ⟨tiles, waypoints, line_string⟩)

/-! ## Domain objects (src/geo/src/geocache.rs) -/

/-- `ContainerSize` (src/geo/src/geocache.rs:28-35). -/
inductive ContainerSize where
  | nano
  | micro
  | small
  | regular
  | large
  | unknown
deriving DecidableEq, Repr

/-- `ContainerSize::from` (src/geo/src/geocache.rs:78-84); named `fromId`
because `from` is reserved in Lean. -/
def ContainerSize.fromId (size : ℕ) : ContainerSize :=
  match size with
  | 2 => ContainerSize.micro
  | _ => ContainerSize.unknown

/-- `CacheType` (src/geo/src/geocache.rs:87-105). -/
inductive CacheType where
  | traditional
  | multi
  | earth
  | webcam
  | mystery
  | wherigo
  | event
  | virtual
  | letterbox
  | cito
  | ape
  | megaEvent
  | gigaEvent
  | gpsAdventures
  | headquarter
  | waypoint
  | unknown
deriving DecidableEq, Repr

/-- `CacheType::from` (src/geo/src/geocache.rs:108-129); named `fromId`
because `from` is reserved in Lean. -/
def CacheType.fromId (cache_type : ℕ) : CacheType :=
  match cache_type with
  | 2 => CacheType.traditional
  | 1858 => CacheType.wherigo
  | 6 => CacheType.event
  | 8 => CacheType.mystery
  | 3 => CacheType.multi
  | 137 => CacheType.earth
  | 4 => CacheType.virtual
  | 5 => CacheType.letterbox
  | 13 => CacheType.cito
  | 9 => CacheType.ape
  | 11 => CacheType.webcam
  | 453 => CacheType.megaEvent
  | 1304 => CacheType.gpsAdventures
  | 3773 => CacheType.headquarter
  | 7005 => CacheType.gigaEvent
  | 0 => CacheType.waypoint
  | _ => CacheType.unknown

/-- `LogType` (src/geo/src/geocache.rs:139-144). -/
inductive LogType where
  | found
  | didNotFind
  | writeNote
  | unknown
deriving DecidableEq, Repr

/-- One `GeocacheLog` (src/geo/src/geocache.rs:131-136). -/
structure GeocacheLog where
  text : String
  timestamp : String
  log_type : LogType
deriving DecidableEq, Repr

/-- The `Geocache` struct (src/geo/src/geocache.rs:10-25); the `f32` fields
`terrain` and `difficulty` are modelled as exact rationals. -/
structure Geocache where
  code : String
  name : String
  is_premium : Bool
  terrain : ℚ
  difficulty : ℚ
  coord : Coordinate
  short_description : String
  long_description : String
  encoded_hints : String
  size : ContainerSize
  cache_type : CacheType
  archived : Bool
  available : Bool
  logs : List GeocacheLog
deriving DecidableEq, Repr

/-- `Geocache::premium` (src/geo/src/geocache.rs:56-75): the opaque stub for a
premium-only record, with only `code` set. -/
def Geocache.premium (code : String) : Geocache where
  code := code
  name := ""
  is_premium := true
  terrain := 0
  difficulty := 0
  coord := ⟨0, 0⟩
  short_description := ""
  long_description := ""
  encoded_hints := ""
  size := ContainerSize.unknown
  cache_type := CacheType.unknown
  archived := false
  available := false
  logs := []

/-- A `GcCode` (src/src/gc/groundspeak.rs:21-25): a code discovered on a tile
with an optional approximate coordinate from the UTF-grid. -/
structure GcCode where
  code : String
  approx_coord : Option Coordinate
deriving DecidableEq, Repr

/-! ## Planner filters (src/src/track.rs:14-50) -/

/-- `is_active` (src/src/track.rs:37-39). -/
def is_active (gc : Geocache) : Bool :=
  !gc.is_premium && gc.available && !gc.archived

/-- `is_quick_stop` (src/src/track.rs:41-50). -/
def is_quick_stop (gc : Geocache) : Bool :=
  (match gc.cache_type with
    | CacheType.traditional => true
    | _ => false)
  && (decide (gc.difficulty ≤ 3) && decide (gc.terrain ≤ 3))

/-- The track planner's pre-filter (src/src/track.rs:14-20): a discovered code
passes when its approximate coordinate is within 100 m of the track, or when
no approximate coordinate is known. -/
def pre_filter (closestF : Coordinate → Closest) (geod : Coordinate → Coordinate → ℚ)
    (gc : GcCode) : Bool :=
  match gc.approx_coord with
  | some coord => decide (Track.near closestF geod coord ≤ 100)
  | none => true

/-- The track planner's post-filter (src/src/track.rs:21). -/
def post_filter (closestF : Coordinate → Closest) (geod : Coordinate → Coordinate → ℚ)
    (gc : Geocache) : Bool :=
  is_active gc && is_quick_stop gc && decide (Track.near closestF geod gc.coord ≤ 100)

/-! ## JSON values (serde_json::Value) -/

/-- A `serde_json::Value`; numbers are modelled as exact rationals. -/
inductive Json where
  | null
  | bool (b : Bool)
  | num (q : ℚ)
  | str (s : String)
  | arr (elems : List Json)
  | obj (fields : List (String × Json))

/-- `v["key"]`: field lookup on an object, `Null` for a missing key or a
non-object. -/
def Json.getKey (j : Json) (k : String) : Json :=
  match j with
  | Json.obj fields => (fields.lookup k).getD Json.null
  | _ => Json.null

/-- `Value::as_str`. -/
def Json.as_str (j : Json) : Option String :=
  match j with
  | Json.str s => some s
  | _ => none

/-- `Value::as_bool`. -/
def Json.as_bool (j : Json) : Option Bool :=
  match j with
  | Json.bool b => some b
  | _ => none

/-- `Value::as_f64`. -/
def Json.as_f64 (j : Json) : Option ℚ :=
  match j with
  | Json.num q => some q
  | _ => none

/-- `Value::as_u64`: only stored non-negative integers qualify. -/
def Json.as_u64 (j : Json) : Option ℕ :=
  match j with
  | Json.num q => if q.den = 1 ∧ 0 ≤ q.num then some q.num.toNat else none
  | _ => none

/-! ## Upstream detail parsing (src/src/gc/groundspeak.rs) -/

/-- `groundspeak::Error` (src/src/gc/groundspeak.rs:27-41); only the variants
the model can produce are listed. -/
inductive GsError where
  | httpRequest
  | jsonRaw
  | unknown
deriving DecidableEq, Repr

/-- `option.ok_or(err)`. -/
def okOr {α : Type} (o : Option α) (e : GsError) : Except GsError α :=
  match o with
  | some a => Except.ok a
  | none => Except.error e

/-- Embeds `parse` (src/src/gc/groundspeak.rs:140-198): a premium-only record
short-circuits to the `Geocache::premium` stub right after the code is read;
otherwise every required field is extracted (`JsonRaw` on a missing one), the
lite-mode description/hints/logs are left empty, and `archived` is hard-coded
`false`. -/
def parse (v : Json) : Except GsError Geocache := do
  let code ← okOr (v.getKey "referenceCode").as_str GsError.jsonRaw
  let is_premium := ((v.getKey "isPremiumOnly").as_bool).getD false
  if is_premium then
    return Geocache.premium code
  let name ← okOr (v.getKey "name").as_str GsError.jsonRaw
  let terrain ← okOr (v.getKey "terrain").as_f64 GsError.jsonRaw
  let difficulty ← okOr (v.getKey "difficulty").as_f64 GsError.jsonRaw
  let lat ← okOr ((v.getKey "postedCoordinates").getKey "latitude").as_f64 GsError.jsonRaw
  let lon ← okOr ((v.getKey "postedCoordinates").getKey "longitude").as_f64 GsError.jsonRaw
  let size := ContainerSize.fromId (← okOr ((v.getKey "geocacheSize").getKey "id").as_u64 GsError.jsonRaw)
  let cache_type := CacheType.fromId (← okOr ((v.getKey "geocacheType").getKey "id").as_u64 GsError.jsonRaw)
  let status ← okOr (v.getKey "status").as_str GsError.jsonRaw
  return { code := code
           name := name
           is_premium := is_premium
           terrain := terrain
           difficulty := difficulty
           coord := ⟨lat, lon⟩
           short_description := ""
           long_description := ""
           encoded_hints := ""
           size := size
           cache_type := cache_type
           archived := false
           available := status == "Active"
           logs := [] }

/-! ## Database, upstream environment and call trace (src/src/gc/cache.rs,
src/src/gc/tokencache.rs) -/

/-- `cache::Error` (src/src/gc/cache.rs:20-40); only the variants the model
can produce are listed. -/
inductive CacheError where
  | geocaching
  | database
  | groundSpeak (e : GsError)
deriving DecidableEq, Repr

/-- The persisted state: the `geocaches`, `settings`, `tiles2` and
`tiles_codes` tables (association lists keyed by their SQL primary keys;
timestamps are integers). -/
structure Db where
  geocaches : List (String × Json × Int)
  settings : List (String × String)
  tiles2 : List (ℕ × Int)
  tiles_codes : List (ℕ × String × Option Coordinate)

/-- SQL `INSERT ... ON CONFLICT (key) DO UPDATE`: replace the row with the
given key, or append a new row. -/
def upsert {κ ω : Type} [DecidableEq κ] (k : κ) (v : ω) : List (κ × ω) → List (κ × ω)
  | [] => [(k, v)]
  | (k', v') :: rest => if k' = k then (k, v) :: rest else (k', v') :: upsert k v rest

/-- `upsert` for the composite `(id, gccode)` primary key of `tiles_codes`. -/
def upsertTileCode (qk : ℕ) (code : String) (coord : Option Coordinate) :
    List (ℕ × String × Option Coordinate) → List (ℕ × String × Option Coordinate)
  | [] => [(qk, code, coord)]
  | (qk', c', v') :: rest =>
      if qk' = qk ∧ c' = code then (qk, code, coord) :: rest
      else (qk', c', v') :: upsertTileCode qk code coord rest

/-- The upstream collaborators: `fetchF n codes` is the JSON array the
provider's detail endpoint returns for the `n`-th detail call of the run (or
a transport/auth error), `oauth rt` the `(access, refresh)` pair the token
endpoint returns for a refresh token (or an error), and `discoverF tile` the
UTF-grid decode of the tile endpoint's reply. -/
structure Env where
  fetchF : ℕ → List String → Except GsError (List Json)
  oauth : String → Except CacheError (String × String)
  discoverF : Tile → Except CacheError (List GcCode)

/-- The observable calls of a run: each detail call with the bearer token it
used and the codes it asked for, the number of `refresh()` invocations, and
each tile-discovery call. -/
structure Trace where
  fetchCalls : List (String × List String)
  refreshes : ℕ
  discoverCalls : List Tile

/-- The trace of a fresh run. -/
def Trace.empty : Trace := ⟨[], 0, []⟩

/-- A `SELECT value FROM settings WHERE id = $1` via `fetch_one`, which fails
with a database error when the row is absent
(src/src/gc/tokencache.rs:47-59). -/
def loadSetting (db : Db) (id : String) : Except CacheError String :=
  match db.settings.lookup id with
  | some v => Except.ok v
  | none => Except.error CacheError.database

/-- Embeds `AuthProvider::refresh` (src/src/gc/tokencache.rs:38-45): load the
stored refresh token (fatal if absent), call the OAuth endpoint, then persist
the new refresh token and the new access token — in that order — before
returning the new access token. -/
def AuthProvider.refresh (env : Env) (db : Db) (tr : Trace) :
    Except CacheError String × Db × Trace :=
  let tr1 : Trace := { tr with refreshes := tr.refreshes + 1 }
  match loadSetting db "refresh_token" with
  | Except.error e => (Except.error e, db, tr1)
  | Except.ok rt =>
    match env.oauth rt with
    | Except.error e => (Except.error e, db, tr1)
    | Except.ok (newAccess, newRefresh) =>
      let db1 : Db := { db with settings := upsert "refresh_token" newRefresh db.settings }
      let db2 : Db := { db1 with settings := upsert "access_token" newAccess db1.settings }
      (Except.ok newAccess, db2, tr1)

/-- Embeds `AuthProvider::token` (src/src/gc/tokencache.rs:30-36): return the
stored access token, or refresh when the lookup fails. -/
def AuthProvider.token (env : Env) (db : Db) (tr : Trace) :
    Except CacheError String × Db × Trace :=
  match loadSetting db "access_token" with
  | Except.ok t => (Except.ok t, db, tr)
  | Except.error _ => AuthProvider.refresh env db tr

/-- `groundspeak::BATCH_SIZE` (src/src/gc/groundspeak.rs:13). -/
def BATCH_SIZE : ℕ := 50

/-- Embeds `Groundspeak::fetch` (src/src/gc/groundspeak.rs:110-137): a batch
of more than `BATCH_SIZE` codes is rejected before any network traffic;
otherwise the provider's reply for the next detail call is returned and the
call is recorded in the trace. -/
def Groundspeak.fetch (env : Env) (tr : Trace) (token : String) (codes : List String) :
    Except GsError (List Json) × Trace :=
  if codes.length > BATCH_SIZE then (Except.error GsError.unknown, tr)
  else (env.fetchF tr.fetchCalls.length codes,
    { tr with fetchCalls := tr.fetchCalls ++ [(token, codes)] })

/-- Embeds `Cache::save_geocache` (src/src/gc/cache.rs:170-181): read the
`referenceCode` (error if absent), upsert `(code, raw, now)` into the
`geocaches` table, then parse the raw payload.  The SQL insert has already
executed when a parse failure propagates, so the row stays in the table
either way. -/
def save_geocache (db : Db) (now : Int) (geocache : Json) :
    Except CacheError Geocache × Db :=
  match (geocache.getKey "referenceCode").as_str with
  | none => (Except.error CacheError.geocaching, db)
  | some code =>
    let db1 : Db := { db with geocaches := upsert code (geocache, now) db.geocaches }
    match parse geocache with
    | Except.error e => (Except.error (CacheError.groundSpeak e), db1)
    | Except.ok gc => (Except.ok gc, db1)

/-- The save loop of `fetch_chunk` (src/src/gc/cache.rs:136-139): each payload
element is saved in order; a save error propagates (out of `fetch_chunk`, via
`?`) with the rows saved so far still in the table. -/
def saveAll (db : Db) (now : Int) : List Json → Except CacheError (List Geocache) × Db
  | [] => (Except.ok [], db)
  | j :: rest =>
    match save_geocache db now j with
    | (Except.error e, db1) => (Except.error e, db1)
    | (Except.ok gc, db1) =>
      match saveAll db1 now rest with
      | (Except.error e, db2) => (Except.error e, db2)
      | (Except.ok gcs, db2) => (Except.ok (gc :: gcs), db2)

/-- The retry loop of `Cache::fetch_chunk` (src/src/gc/cache.rs:127-168),
with `remaining = 2 - attempts` loop iterations left: get a token, fetch the
chunk; on success save every record and return the parsed list (the
`result.len() != codes.len()` branch only logs the codes missing from the
payload — the `save_geocache(Geocache::premium(..))` call there is commented
out); on a fetch error refresh the token and try again.  When the loop
exhausts its two iterations the result is `Error::Geocaching`. -/
def fetch_chunk_go (env : Env) (now : Int) (codes : List String) :
    ℕ → Db → Trace → Except CacheError (List Geocache) × Db × Trace
  | 0, db, tr => (Except.error CacheError.geocaching, db, tr)
  | remaining + 1, db, tr =>
    match AuthProvider.token env db tr with
    | (Except.error e, db1, tr1) => (Except.error e, db1, tr1)
    | (Except.ok tok, db1, tr1) =>
      match Groundspeak.fetch env tr1 tok codes with
      | (Except.error _, tr2) =>
        match AuthProvider.refresh env db1 tr2 with
        | (Except.error e, db2, tr3) => (Except.error e, db2, tr3)
        | (Except.ok _, db2, tr3) => fetch_chunk_go env now codes remaining db2 tr3
      | (Except.ok payload, tr2) =>
        match saveAll db1 now payload with
        | (Except.error e, db2) => (Except.error e, db2, tr2)
        | (Except.ok result, db2) => (Except.ok result, db2, tr2)

/-- `Cache::fetch_chunk` (src/src/gc/cache.rs:127-168): the loop runs
`while attempts < 2`, so at most two fetch attempts. -/
def fetch_chunk (env : Env) (now : Int) (db : Db) (tr : Trace) (codes : List String) :
    Except CacheError (List Geocache) × Db × Trace :=
  fetch_chunk_go env now codes 2 db tr

/-- The freshness window: `chrono::Duration::days(7)` in seconds. -/
def SEVEN_DAYS : Int := 604800

/-- Embeds `Cache::load_geocache` with `load_geocache_err`
(src/src/gc/cache.rs:183-213): look the code up in `geocaches` with
`ts >= cutoff`; a stale or missing row, and any read or parse error
(degraded to a miss by `load_geocache`), give `none`. -/
def load_geocache (db : Db) (code : String) (cutoff : Int) : Option Geocache :=
  match db.geocaches.lookup code with
  | some (raw, ts) =>
    if cutoff ≤ ts then
      match parse raw with
      | Except.ok gc => some gc
      | Except.error _ => none
    else none
  | none => none

/-- The recursion of `slice::chunks`, made structural on a fuel argument so
that it evaluates by reduction; `chunks` below supplies `fuel = l.length`,
which always suffices because every step drops at least one element. -/
def chunksGo {α : Type} (n : ℕ) : ℕ → List α → List (List α)
  | _, [] => []
  | 0, _ :: _ => []
  | fuel + 1, x :: xs => ((x :: xs).take n) :: chunksGo n fuel ((x :: xs).drop n)

/-- Rust `slice::chunks(n)` (with `n > 0`): consecutive chunks of `n`
elements in order, the last one possibly shorter.  (`chunks(0)` panics in
Rust; the orchestrator only calls this with `BATCH_SIZE = 50`.) -/
def chunks {α : Type} (n : ℕ) (l : List α) : List (List α) :=
  chunksGo n l.length l

/-- The fetch loop of `Cache::get` (src/src/gc/cache.rs:94-98): one
`fetch_chunk` per chunk, in order; a chunk error propagates via `?`. -/
def fetchChunks (env : Env) (now : Int) :
    List (List String) → Db → Trace → Except CacheError (List Geocache) × Db × Trace
  | [], db, tr => (Except.ok [], db, tr)
  | c :: rest, db, tr =>
    match fetch_chunk env now db tr c with
    | (Except.error e, db1, tr1) => (Except.error e, db1, tr1)
    | (Except.ok gcs, db1, tr1) =>
      match fetchChunks env now rest db1 tr1 with
      | (Except.error e, db2, tr2) => (Except.error e, db2, tr2)
      | (Except.ok more, db2, tr2) => (Except.ok (gcs ++ more), db2, tr2)

/-- Embeds `Cache::get` (src/src/gc/cache.rs:71-125): partition the requested
codes (in order) into cache hits and misses against the 7-day cutoff, chunk
the misses into groups of `BATCH_SIZE`, fetch each chunk, and return the hits
followed by everything fetched.  A short total is only logged (best effort);
with no misses no upstream call is made. -/
def Cache.get (env : Env) (now : Int) (db : Db) (tr : Trace) (codes : List String) :
    Except CacheError (List Geocache) × Db × Trace :=
  let cutoff := now - SEVEN_DAYS
  let cache_hit := codes.filterMap fun c => load_geocache db c cutoff
  let cache_miss := codes.filter fun c => (load_geocache db c cutoff).isNone
  if cache_miss.isEmpty then (Except.ok cache_hit, db, tr)
  else
    match fetchChunks env now (chunks BATCH_SIZE cache_miss) db tr with
    | (Except.error e, db1, tr1) => (Except.error e, db1, tr1)
    | (Except.ok fetched, db1, tr1) => (Except.ok (cache_hit ++ fetched), db1, tr1)

/-- The companion-table read of `Cache::load_gccodes`
(src/src/gc/cache.rs:238-260): every `tiles_codes` row of the tile's quadkey,
an approximate coordinate only when both `lat` and `lon` are stored. -/
def load_gccodes (db : Db) (tile : Tile) : List GcCode :=
  db.tiles_codes.filterMap fun row =>
    if row.1 = tile.quadkey then some ⟨row.2.1, row.2.2⟩ else none

/-- Embeds `Cache::store_gccodes` (src/src/gc/cache.rs:262-289), the single
transaction run after a discovery: delete the tile's companion rows, upsert
the `tiles2` header with `ts = now`, then upsert each discovered code. -/
def store_gccodes (db : Db) (now : Int) (tile : Tile) (codes : List GcCode) : Db :=
  let qk := tile.quadkey
  let cleaned := db.tiles_codes.filter fun row => row.1 ≠ qk
  let codesRows := codes.foldl (fun acc c => upsertTileCode qk c.code c.approx_coord acc) cleaned
  { db with
      tiles2 := upsert qk now db.tiles2
      tiles_codes := codesRows }

/-- Embeds `Cache::discover` (src/src/gc/cache.rs:215-236): a `tiles2` row
with `ts >= now - 7d` is a hit and is answered from the two tables with the
stored timestamp and no upstream traffic; otherwise the tile is discovered
upstream (recorded in the trace) and stored with `ts = now`. -/
def Cache.discover (env : Env) (now : Int) (db : Db) (tr : Trace) (tile : Tile) :
    Except CacheError (Int × List GcCode) × Db × Trace :=
  let cutoff := now - SEVEN_DAYS
  let fresh := match db.tiles2.lookup tile.quadkey with
    | some ts => if cutoff ≤ ts then some ts else none
    | none => none
  match fresh with
  | some ts => (Except.ok (ts, load_gccodes db tile), db, tr)
  | none =>
    let tr1 : Trace := { tr with discoverCalls := tr.discoverCalls ++ [tile] }
    match env.discoverF tile with
    | Except.error e => (Except.error e, db, tr1)
    | Except.ok codes => (Except.ok (now, codes), store_gccodes db now tile codes, tr1)

/-! ## Concrete scenarios used by witnesses and counterexamples -/

/-- A minimal well-formed upstream detail record for code `c` (every field
`parse` requires, premium flag false). -/
def mkJson (c : String) : Json :=
  Json.obj [("referenceCode", Json.str c),
            ("isPremiumOnly", Json.bool false),
            ("name", Json.str c),
            ("terrain", Json.num 1),
            ("difficulty", Json.num 1),
            ("postedCoordinates", Json.obj [("latitude", Json.num 0), ("longitude", Json.num 0)]),
            ("geocacheSize", Json.obj [("id", Json.num 2)]),
            ("geocacheType", Json.obj [("id", Json.num 2)]),
            ("status", Json.str "Active")]

/-- What `parse` makes of `mkJson c`. -/
def mkGc (c : String) : Geocache where
  code := c
  name := c
  is_premium := false
  terrain := 1
  difficulty := 1
  coord := ⟨0, 0⟩
  short_description := ""
  long_description := ""
  encoded_hints := ""
  size := ContainerSize.micro
  cache_type := CacheType.traditional
  archived := false
  available := true
  logs := []

/-- An upstream whose detail endpoint always answers every requested code
with a well-formed record and whose token endpoint always succeeds. -/
def happyEnv : Env where
  fetchF := fun _ cs => Except.ok (cs.map mkJson)
  oauth := fun _ => Except.ok ("A2", "R2")
  discoverF := fun _ => Except.ok []

/-- A database holding only a valid access token. -/
def seededDb : Db := ⟨[], [("access_token", "T")], [], []⟩

/-- An upstream detail record with `isPremiumOnly = true`. -/
def premiumJson : Json :=
  Json.obj [("referenceCode", Json.str "GC1"), ("isPremiumOnly", Json.bool true)]

/-- An upstream whose detail endpoint returns one premium-only record. -/
def premiumEnv : Env where
  fetchF := fun _ _ => Except.ok [premiumJson]
  oauth := fun _ => Except.ok ("A2", "R2")
  discoverF := fun _ => Except.ok []

/-- An upstream whose first detail call fails (an expired token, say) and
whose second succeeds; the token endpoint rotates to `("A2", "R2")`. -/
def retryEnv : Env where
  fetchF := fun i cs => if i = 0 then Except.error GsError.httpRequest else Except.ok (cs.map mkJson)
  oauth := fun _ => Except.ok ("A2", "R2")
  discoverF := fun _ => Except.ok []

/-- A database holding an access token and a refresh token. -/
def authDb : Db := ⟨[], [("access_token", "A1"), ("refresh_token", "R1")], [], []⟩

/-- A database whose `tiles2` holds quadkey 13 at timestamp 1000, with one
companion code row. -/
def tileDb : Db := ⟨[], [], [(13, 1000)], [(13, "GC9", none)]⟩

/-- An upstream whose tile endpoint discovers exactly one code. -/
def tileEnv : Env where
  fetchF := fun _ cs => Except.ok (cs.map mkJson)
  oauth := fun _ => Except.ok ("A2", "R2")
  discoverF := fun _ => Except.ok [⟨"GC7", some ⟨1, 2⟩⟩]

/-- The generic grid shape shared by `Tile.around` and `Tile.near`: every
`(x, y)` in the inclusive rectangle, at zoom `zz`. -/
def tileGrid (xlo xhi ylo yhi zz : ℕ) : List Tile :=
  (rangeIncl xlo xhi).flatMap fun x =>
    (rangeIncl ylo yhi).map fun y =>
      ⟨x, y, zz⟩

/-! ## Theorems: tile geometry -/

theorem mem_rangeIncl (lo hi m : ℕ) : m ∈ rangeIncl lo hi ↔ lo ≤ m ∧ m ≤ hi := by
  rw [rangeIncl, List.mem_range'_1]
  omega

theorem length_rangeIncl (lo hi : ℕ) : (rangeIncl lo hi).length = hi + 1 - lo := by
  simp [rangeIncl]

theorem mem_tileGrid (xlo xhi ylo yhi zz : ℕ) (s : Tile) :
    s ∈ tileGrid xlo xhi ylo yhi zz ↔
      (xlo ≤ s.x ∧ s.x ≤ xhi ∧ ylo ≤ s.y ∧ s.y ≤ yhi ∧ s.z = zz) := by
  obtain ⟨sx, sy, sz⟩ := s
  rw [tileGrid, List.mem_flatMap]
  constructor
  · rintro ⟨a, ha, hmem⟩
    rw [List.mem_map] at hmem
    obtain ⟨b, hb, heq⟩ := hmem
    rw [mem_rangeIncl] at ha
    rw [mem_rangeIncl] at hb
    cases heq
    exact ⟨ha.1, ha.2, hb.1, hb.2, rfl⟩
  · rintro ⟨h1, h2, h3, h4, h5⟩
    refine ⟨sx, (mem_rangeIncl ..).mpr ⟨h1, h2⟩, ?_⟩
    rw [List.mem_map]
    exact ⟨sy, (mem_rangeIncl ..).mpr ⟨h3, h4⟩, by rw [show sz = zz from h5]⟩

theorem length_tileGrid (xlo xhi ylo yhi zz : ℕ) :
    (tileGrid xlo xhi ylo yhi zz).length = (xhi + 1 - xlo) * (yhi + 1 - ylo) := by
  rw [tileGrid, List.length_flatMap]
  simp only [Function.comp_def, List.length_map, length_rangeIncl]
  rw [List.map_const', List.sum_replicate, smul_eq_mul, length_rangeIncl]

theorem around_eq_grid (t : Tile) :
    t.around = tileGrid ((t.x + (U32 - 1)) % U32) ((t.x + 1) % U32)
      ((t.y + (U32 - 1)) % U32) ((t.y + 1) % U32) t.z := rfl

theorem near_eq_grid (tl br : Tile) :
    Tile.near tl br = tileGrid tl.x br.x tl.y br.y Tile.DEFAULT_ZOOM := rfl

theorem wrap_sub_one (a : ℕ) (h1 : 1 ≤ a) (h2 : a ≤ U32 - 2) :
    (a + (U32 - 1)) % U32 = a - 1 := by
  have hU : U32 = 4294967296 := rfl
  rw [hU] at h2 ⊢
  have h : a + (4294967296 - 1) = (a - 1) + 1 * 4294967296 := by omega
  rw [h, Nat.add_mul_mod_self_right]
  exact Nat.mod_eq_of_lt (by omega)

theorem wrap_add_one (a : ℕ) (h2 : a ≤ U32 - 2) : (a + 1) % U32 = a + 1 := by
  have hU : U32 = 4294967296 := rfl
  rw [hU] at h2 ⊢
  exact Nat.mod_eq_of_lt (by omega)

/-- Claim C8 (amended): for every tile whose `x` and `y` lie strictly inside
the `u32` range — `1 ≤ x, y ≤ 2^32 - 2` — `around()` returns exactly 9
tiles, the 3×3 neighborhood at the same zoom, and the tile itself is among
them.  (At `x = 0` or `y = 0` the `u32` subtraction wraps and the result is
empty — see the counterexample.) -/
theorem around_is_3x3_for_interior_tiles (t : Tile)
    (hx1 : 1 ≤ t.x) (hx2 : t.x ≤ U32 - 2) (hy1 : 1 ≤ t.y) (hy2 : t.y ≤ U32 - 2) :
    t.around.length = 9 ∧ t ∈ t.around ∧
      ∀ s : Tile, s ∈ t.around ↔
        (t.x - 1 ≤ s.x ∧ s.x ≤ t.x + 1 ∧ t.y - 1 ≤ s.y ∧ s.y ≤ t.y + 1 ∧ s.z = t.z) := by
  have hx := wrap_sub_one _ hx1 hx2
  have hy := wrap_sub_one _ hy1 hy2
  have hx' := wrap_add_one _ hx2
  have hy' := wrap_add_one _ hy2
  have hgrid : t.around = tileGrid (t.x - 1) (t.x + 1) (t.y - 1) (t.y + 1) t.z := by
    rw [around_eq_grid, hx, hy, hx', hy']
  refine ⟨?_, ?_, ?_⟩
  · rw [hgrid, length_tileGrid]
    have e1 : t.x + 1 + 1 - (t.x - 1) = 3 := by omega
    have e2 : t.y + 1 + 1 - (t.y - 1) = 3 := by omega
    rw [e1, e2]
  · rw [hgrid, mem_tileGrid]
    exact ⟨by omega, by omega, by omega, by omega, rfl⟩
  · intro s
    rw [hgrid, mem_tileGrid]

/-- Witness for C8: the interior tile `(5, 6, 14)`. -/
theorem around_is_3x3_witness :
    (Tile.mk 5 6 14).around.length = 9 ∧ Tile.mk 5 6 14 ∈ (Tile.mk 5 6 14).around :=
  ⟨(around_is_3x3_for_interior_tiles ⟨5, 6, 14⟩ (by decide) (by decide) (by decide)
      (by decide)).1,
   (around_is_3x3_for_interior_tiles ⟨5, 6, 14⟩ (by decide) (by decide) (by decide)
      (by decide)).2.1⟩

/-- Counterexample for C8 as stated: at `x = y = 0` the `u32` subtraction
`self.x - 1` wraps to `2^32 - 1`, the inclusive ranges are empty, and
`around()` returns no tiles at all — not 9, and not containing the tile. -/
theorem around_at_origin_empty :
    (Tile.mk 0 0 14).around.length ≠ 9 ∧ Tile.mk 0 0 14 ∉ (Tile.mk 0 0 14).around := by
  constructor
  · decide
  · decide

/-- Claim C2 (amended): `Tile::near` returns exactly the tiles whose integer
coordinates lie in the inclusive rectangle spanned by the two corner tiles —
but at `DEFAULT_ZOOM = 12`, not 14 as the spec says.  The corner tiles are
the source's `from_coordinates(project(radius, 315°|135°), DEFAULT_ZOOM)`,
which always carry `z = DEFAULT_ZOOM` whatever the floating-point projection
yields. -/
theorem near_square_at_default_zoom (tl br : Tile) :
    Tile.DEFAULT_ZOOM = 12 ∧
      ∀ t : Tile, t ∈ Tile.near tl br ↔
        (tl.x ≤ t.x ∧ t.x ≤ br.x ∧ tl.y ≤ t.y ∧ t.y ≤ br.y ∧ t.z = Tile.DEFAULT_ZOOM) := by
  refine ⟨rfl, fun t => ?_⟩
  rw [near_eq_grid, mem_tileGrid]

/-- Counterexample for C2 as stated: a tile returned by `Tile::near` has
`z = 12`, not 14 (the corner tiles of any call have `z = 12` by
construction, so this holds for every center and radius). -/
theorem near_returns_zoom_12_not_14 :
    Tile.mk 2125 1418 12 ∈ Tile.near (Tile.mk 2125 1418 12) (Tile.mk 2126 1419 12) ∧
      (Tile.mk 2125 1418 12).z ≠ 14 := by
  constructor
  · decide
  · decide

/-! ## Theorems: quadkey -/

theorem lor_mul_pow_eq_add (a m k : ℕ) (h : a < 2 ^ k) : a ||| m * 2 ^ k = a + m * 2 ^ k := by
  apply Nat.eq_of_testBit_eq
  intro j
  have hmul : ∀ b : ℕ, b < 2 ^ k → (2 ^ k * m + b).testBit j =
      if j < k then b.testBit j else m.testBit (j - k) := fun b hb =>
    Nat.testBit_mul_pow_two_add m hb j
  have h1 : (a + m * 2 ^ k).testBit j = if j < k then a.testBit j else m.testBit (j - k) := by
    rw [Nat.add_comm, Nat.mul_comm]
    exact hmul a h
  have h2 : (m * 2 ^ k).testBit j = if j < k then false else m.testBit (j - k) := by
    have := hmul 0 (Nat.pos_pow_of_pos k (by norm_num))
    simpa [Nat.mul_comm] using this
  rw [Nat.testBit_lor, h1, h2]
  by_cases hj : j < k
  · simp [hj]
  · have : a.testBit j = false :=
      Nat.testBit_eq_false_of_lt (lt_of_lt_of_le h (Nat.pow_le_pow_right (by norm_num) (by omega)))
    simp [hj, this]

theorem interleaveBits_lt (x y : ℕ) (z : ℕ) : interleaveBits x y z < 2 ^ (2 * z) := by
  induction z with
  | zero => simp [interleaveBits]
  | succ n ih =>
    have h4 : 2 ^ (2 * (n + 1)) = 2 ^ (2 * n) * 4 := by
      rw [show 2 * (n + 1) = 2 * n + 2 by ring, pow_add]
      norm_num
    have h2 : 2 ^ (2 * n + 1) = 2 ^ (2 * n) * 2 := pow_succ 2 (2 * n)
    simp only [interleaveBits]
    cases hx : x.testBit n <;> cases hy : y.testBit n <;> simp [Bool.toNat] <;> omega

/-- Claim C9 (amended): for zoom levels up to 16 — where all interleaved bit
positions fit the `u32` result — `quadkey()` is exactly the interleaving of
the low `z` bits of `x` and `y`.  (Above `z = 16` the `u32` left shifts
discard high bits — see the counterexample.) -/
theorem quadkey_interleaves_low_bits (x y z : ℕ) (hz : z ≤ 16)
    (_hx : x < 2 ^ z) (_hy : y < 2 ^ z) :
    Tile.quadkey ⟨x, y, z⟩ = interleaveBits x y z := by
  clear _hx _hy
  induction z with
  | zero => simp [Tile.quadkey, interleaveBits]
  | succ n ih =>
    have hn15 : n ≤ 15 := by omega
    have ihv := ih (by omega)
    simp only [Tile.quadkey] at ihv ⊢
    rw [List.range_succ, List.foldl_append, List.foldl_cons, List.foldl_nil, ihv]
    have hmod : n % 32 = n := Nat.mod_eq_of_lt (by omega)
    have hmod1 : (n + 1) % 32 = n + 1 := Nat.mod_eq_of_lt (by omega)
    have hp15 : (2 : ℕ) ^ n ≤ 2 ^ 15 := Nat.pow_le_pow_right (by norm_num) hn15
    have hp30 : (2 : ℕ) ^ (2 * n) ≤ 2 ^ 30 := Nat.pow_le_pow_right (by norm_num) (by omega)
    have hp31 : (2 : ℕ) ^ (2 * n + 1) ≤ 2 ^ 31 := Nat.pow_le_pow_right (by norm_num) (by omega)
    have e15 : (2 : ℕ) ^ 15 = 32768 := by norm_num
    have e30 : (2 : ℕ) ^ 30 = 1073741824 := by norm_num
    have e31 : (2 : ℕ) ^ 31 = 2147483648 := by norm_num
    have hone : u32shl 1 n = 2 ^ n := by
      simp only [u32shl, hmod, one_mul, U32]
      exact Nat.mod_eq_of_lt (by omega)
    set tx := (x.testBit n).toNat with htx
    set ty := (y.testBit n).toNat with hty
    have htx1 : tx ≤ 1 := Bool.toNat_le _
    have hty1 : ty ≤ 1 := Bool.toNat_le _
    have handx : x &&& 2 ^ n = tx * 2 ^ n := Nat.and_two_pow x n
    have handy : y &&& 2 ^ n = ty * 2 ^ n := Nat.and_two_pow y n
    have hpow2n : (2 : ℕ) ^ n * 2 ^ n = 2 ^ (2 * n) := by
      rw [← pow_add]
      ring_nf
    have hshx : u32shl (tx * 2 ^ n) n = tx * 2 ^ (2 * n) := by
      simp only [u32shl, hmod, U32]
      rw [mul_assoc, hpow2n]
      exact Nat.mod_eq_of_lt (by nlinarith)
    have hshy : u32shl (ty * 2 ^ n) (n + 1) = ty * 2 ^ (2 * n + 1) := by
      simp only [u32shl, hmod1, U32]
      rw [mul_assoc, show (2 : ℕ) ^ n * 2 ^ (n + 1) = 2 ^ (2 * n + 1) by rw [← pow_add]; ring_nf]
      exact Nat.mod_eq_of_lt (by nlinarith)
    rw [hone, handx, handy, hshx, hshy]
    have hinner : tx * 2 ^ (2 * n) ||| ty * 2 ^ (2 * n + 1)
        = tx * 2 ^ (2 * n) + ty * 2 ^ (2 * n + 1) := by
      apply lor_mul_pow_eq_add
      calc tx * 2 ^ (2 * n) ≤ 1 * 2 ^ (2 * n) := Nat.mul_le_mul_right _ htx1
        _ < 2 ^ (2 * n + 1) := by
          rw [one_mul, pow_succ]
          have := Nat.pos_pow_of_pos (2 * n) (show 0 < 2 by norm_num)
          omega
    rw [hinner]
    have houter : interleaveBits x y n ||| (tx * 2 ^ (2 * n) + ty * 2 ^ (2 * n + 1))
        = interleaveBits x y n + (tx * 2 ^ (2 * n) + ty * 2 ^ (2 * n + 1)) := by
      have hrw : tx * 2 ^ (2 * n) + ty * 2 ^ (2 * n + 1) = (tx + ty * 2) * 2 ^ (2 * n) := by
        rw [pow_succ]
        ring
      rw [hrw]
      exact lor_mul_pow_eq_add _ _ _ (interleaveBits_lt x y n)
    rw [houter]
    simp only [interleaveBits]
    ring

/-- Witness for C9: the spec's tile `(8579, 5698, 14)` — the quadkey is the
interleaved value. -/
theorem quadkey_interleaves_witness :
    Tile.quadkey ⟨8579, 5698, 14⟩ = interleaveBits 8579 5698 14 :=
  quadkey_interleaves_low_bits 8579 5698 14 (by decide) (by decide) (by decide)

/-- Counterexample for C9 as stated (for every `z`): at `z = 20` with
`x = 2^19` the interleaved bit would sit at position 38, which the `u32`
shift discards, so `quadkey()` is 0 while the interleaving is `2^38`. -/
theorem quadkey_truncates_above_zoom_16 :
    Tile.quadkey ⟨524288, 0, 20⟩ ≠ interleaveBits 524288 0 20 := by
  decide

/-! ## Theorems: coordinate projection -/

theorem rustRem_noop (x : ℚ) (h1 : -180 ≤ x) (h2 : x < 180) :
    rustRem (x + 540) 360 - 180 = x := by
  have h360 : (0 : ℚ) < 360 := by norm_num
  have hge : (1 : ℚ) ≤ (x + 540) / 360 := by
    rw [le_div_iff₀ h360]
    linarith
  have hlt : (x + 540) / 360 < 2 := by
    rw [div_lt_iff₀ h360]
    linarith
  have hnneg : ¬((x + 540) / 360 < 0) := by linarith
  have hfl : ⌊(x + 540) / 360⌋ = 1 := by
    rw [Int.floor_eq_iff]
    constructor
    · exact_mod_cast hge
    · push_cast
      linarith
  simp only [rustRem, ratTrunc, if_neg hnneg, hfl]
  push_cast
  ring

/-- Claim C6: evaluation of the code at the failing input.  Projecting from
`(lat 0, lon 179)` by 637 100 m at bearing 90° yields a longitude greater
than 180: the `(x + 540) % 360 - 180` step is applied to the radian value
`lon_rad2` (where it is the identity, since `|lon_rad2| ≤ 2π < 180`), so the
final degree value `lon_rad2 * 180 / π ≈ 184.7` is never normalised.  Here
`atan2` returns `1/10` (the exact real value of the angular distance
`d / R`); any faithful `f64` trigonometry gives the same conclusion. -/
theorem project_lon_exceeds_180 :
    180 < (Coordinate.project trigStub ⟨0, 179⟩ 637100 90).lon := by
  have hPIl : (3 : ℚ) < f64PI := by norm_num [f64PI]
  have hPIu : f64PI < 4 := by norm_num [f64PI]
  have hPIpos : (0 : ℚ) < f64PI := by linarith
  simp only [Coordinate.project, trigStub]
  have hL1 : (-180 : ℚ) ≤ 179 * f64PI / 180 + 1 / 10 := by linarith
  have hL2 : 179 * f64PI / 180 + 1 / 10 < 180 := by linarith
  rw [show (179 : ℚ) * f64PI / 180 + 1 / 10 + 540 = (179 * f64PI / 180 + 1 / 10) + 540 by ring]
  rw [rustRem_noop _ hL1 hL2]
  rw [lt_div_iff₀ hPIpos]
  nlinarith

/-! ## Theorems: track -/

/-- Claim C7: evaluation of the code at the failing input.  On a malformed
GPX document (`gpx::read` returns an `Err`) `Track::from_gpx` panics — the
source calls `.unwrap()` — instead of returning the error through its
`Result` type; on a well-formed document with no tracks at all it succeeds
with an empty waypoint list and an empty tile set. -/
theorem from_gpx_panics_on_malformed (tileOf : ℚ → ℚ → ℕ → Tile) (e : GpxError) :
    Track.from_gpx tileOf (Except.error e) = PanicOr.panics ∧
      Track.from_gpx tileOf (Except.ok ⟨[]⟩) = PanicOr.ok (Except.ok ⟨[], [], []⟩) :=
  ⟨rfl, rfl⟩

/-- A well-formed GPX with tracks and segments but no track points also
yields an empty track: the flattening of `trk/trkseg/trkpt` is empty, so
`tiles`, `waypoints` and the polyline are all empty. -/
theorem from_gpx_no_points_empty (tileOf : ℚ → ℚ → ℕ → Tile) (gpx : Gpx)
    (h : (gpx.tracks.flatMap fun t => t.segments).flatMap (fun s => s.points) = []) :
    Track.from_gpx tileOf (Except.ok gpx) = PanicOr.ok (Except.ok ⟨[], [], []⟩) := by
  simp only [Track.from_gpx, h, List.map_nil, List.flatMap_nil, List.dedup_nil]

theorem from_gpx_no_points_empty_witness :
    Track.from_gpx (fun _ _ z => ⟨0, 0, z⟩)
        (Except.ok ⟨[⟨[⟨[]⟩]⟩]⟩) = PanicOr.ok (Except.ok ⟨[], [], []⟩) :=
  from_gpx_no_points_empty (fun _ _ z => ⟨0, 0, z⟩) ⟨[⟨[⟨[]⟩]⟩]⟩ rfl

/-- Claim C10: `Track::near` is the saturating `u16` cast of the geodesic
point-to-polyline distance — truncation toward zero, capped at
`u16::MAX = 65535`; any distance of 65535 m or more and the
empty-polyline sentinel (`Closest::Indeterminate`, distance `f64::MAX`) both
give exactly 65535; and the track planner's 100 m pre-filter compares this
truncated integer. -/
theorem track_near_truncates_and_saturates
    (closestF : Coordinate → Closest) (geod : Coordinate → Coordinate → ℚ)
    (p other : Coordinate)
    (hpoint : closestF other = Closest.singlePoint p)
    (h0 : 0 ≤ geod p other) :
    (Track.near closestF geod other = min u16MAX ⌊geod p other⌋.toNat
      ∧ (65535 ≤ geod p other → Track.near closestF geod other = u16MAX))
    ∧ (∀ closestF2 : Coordinate → Closest, closestF2 other = Closest.indeterminate →
        Track.near closestF2 geod other = u16MAX)
    ∧ (∀ gc : GcCode, ∀ c : Coordinate, gc.approx_coord = some c →
        pre_filter closestF geod gc = decide (Track.near closestF geod c ≤ 100)) := by
  have hval : Track.near closestF geod other = min u16MAX ⌊geod p other⌋.toNat := by
    rw [Track.near, hpoint, f64_as_u16, if_neg (by linarith)]
    rfl
  refine ⟨⟨hval, fun hbig => ?_⟩, fun closestF2 h2 => ?_, fun gc c hc => ?_⟩
  · rw [hval]
    have hfloor : (65535 : ℤ) ≤ ⌊geod p other⌋ := Int.le_floor.mpr (by exact_mod_cast hbig)
    have : (65535 : ℕ) ≤ ⌊geod p other⌋.toNat := by omega
    rw [u16MAX]
    omega
  · rw [Track.near, h2]
    show f64_as_u16 f64MAX = u16MAX
    rw [f64_as_u16]
    have hMpos : (0 : ℚ) ≤ f64MAX := by
      rw [f64MAX]
      positivity
    rw [if_neg (by linarith)]
    have h17 : (131072 : ℚ) ≤ f64MAX := by
      have h1 : ((131072 : ℕ) : ℚ) ≤ ((2 ^ 53 - 1 : ℕ) : ℚ) * ((2 ^ 971 : ℕ) : ℚ) := by
        rw [← Nat.cast_mul]
        exact_mod_cast Nat.le_of_lt (by
          calc (131072 : ℕ) < 2 ^ 971 := by
                exact lt_of_lt_of_le (by norm_num : (131072 : ℕ) < 2 ^ 18)
                  (Nat.pow_le_pow_right (by norm_num) (by norm_num))
            _ ≤ (2 ^ 53 - 1) * 2 ^ 971 := Nat.le_mul_of_pos_left _ (by positivity))
      calc (131072 : ℚ) = ((131072 : ℕ) : ℚ) := by norm_num
        _ ≤ ((2 ^ 53 - 1 : ℕ) : ℚ) * ((2 ^ 971 : ℕ) : ℚ) := h1
        _ = f64MAX := by
            rw [f64MAX]
            push_cast
            norm_num
    have hfloor : (65535 : ℤ) ≤ ⌊f64MAX⌋ := Int.le_floor.mpr (by
      calc ((65535 : ℤ) : ℚ) ≤ 131072 := by norm_num
        _ ≤ f64MAX := h17)
    have : (65535 : ℕ) ≤ ⌊f64MAX⌋.toNat := by omega
    rw [u16MAX]
    omega
  · obtain ⟨code, approx⟩ := gc
    simp only at hc
    rw [hc]
    rfl

/-- Witness for C10: a distance of 70 000 m saturates to 65535, as does the
empty-polyline sentinel. -/
theorem track_near_witness :
    Track.near (fun _ => Closest.singlePoint ⟨0, 0⟩) (fun _ _ => (70000 : ℚ)) ⟨1, 1⟩ = u16MAX ∧
      Track.near (fun _ => Closest.indeterminate) (fun _ _ => (70000 : ℚ)) ⟨1, 1⟩ = u16MAX := by
  have h := track_near_truncates_and_saturates (fun _ => Closest.singlePoint ⟨0, 0⟩)
    (fun _ _ => (70000 : ℚ)) ⟨0, 0⟩ ⟨1, 1⟩ rfl (by norm_num)
  exact ⟨h.1.2 (by norm_num), h.2.1 (fun _ => Closest.indeterminate) rfl⟩

/-! ## Theorems: database and orchestrator plumbing -/

theorem lookup_upsert_self {κ ω : Type} [DecidableEq κ] [BEq κ] [LawfulBEq κ]
    (k : κ) (v : ω) (l : List (κ × ω)) : (upsert k v l).lookup k = some v := by
  induction l with
  | nil => simp [upsert, List.lookup]
  | cons hd tl ih =>
    obtain ⟨k', v'⟩ := hd
    rw [upsert]
    by_cases h : k' = k
    · rw [if_pos h]
      simp [List.lookup]
    · rw [if_neg h]
      rw [List.lookup]
      have : (k == k') = false := by
        rw [beq_eq_false_iff_ne]
        exact fun hk => h hk.symm
      rw [this]
      exact ih

theorem lookup_upsert_other {κ ω : Type} [DecidableEq κ] [BEq κ] [LawfulBEq κ]
    (k k' : κ) (v : ω) (l : List (κ × ω)) (h : k' ≠ k) :
    (upsert k v l).lookup k' = l.lookup k' := by
  induction l with
  | nil =>
    simp only [upsert, List.lookup]
    have : (k' == k) = false := beq_eq_false_iff_ne.mpr h
    rw [this]
  | cons hd tl ih =>
    obtain ⟨a, b⟩ := hd
    rw [upsert]
    by_cases ha : a = k
    · rw [if_pos ha]
      rw [List.lookup, List.lookup]
      have h1 : (k' == k) = false := beq_eq_false_iff_ne.mpr h
      have h2 : (k' == a) = false := beq_eq_false_iff_ne.mpr (ha ▸ h)
      rw [h1, h2]
    · rw [if_neg ha]
      rw [List.lookup, List.lookup]
      cases hck : k' == a
      · exact ih
      · rfl

theorem save_geocache_settings (db : Db) (now : Int) (j : Json) :
    (save_geocache db now j).2.settings = db.settings := by
  rw [save_geocache]
  cases (j.getKey "referenceCode").as_str with
  | none => rfl
  | some code =>
    cases parse j with
    | error e => rfl
    | ok gc => rfl

theorem parse_mkJson (c : String) : parse (mkJson c) = Except.ok (mkGc c) := rfl

theorem save_mkJson (db : Db) (now : Int) (c : String) :
    save_geocache db now (mkJson c) =
      (Except.ok (mkGc c), { db with geocaches := upsert c (mkJson c, now) db.geocaches }) := rfl

theorem saveAll_mkJson (now : Int) (cs : List String) : ∀ db : Db,
    ∃ g, saveAll db now (cs.map mkJson) =
      (Except.ok (cs.map mkGc), { db with geocaches := g }) := by
  induction cs with
  | nil => exact fun db => ⟨db.geocaches, rfl⟩
  | cons c rest ih =>
    intro db
    obtain ⟨g, hg⟩ := ih { db with geocaches := upsert c (mkJson c, now) db.geocaches }
    refine ⟨g, ?_⟩
    simp only [List.map_cons, saveAll, save_mkJson, hg]

theorem refresh_ok (env : Env) (db : Db) (tr : Trace) (rt a2 r2 : String)
    (hrt : db.settings.lookup "refresh_token" = some rt)
    (hoauth : env.oauth rt = Except.ok (a2, r2)) :
    AuthProvider.refresh env db tr =
      (Except.ok a2,
       { db with settings := upsert "access_token" a2 (upsert "refresh_token" r2 db.settings) },
       { tr with refreshes := tr.refreshes + 1 }) := by
  simp only [AuthProvider.refresh, loadSetting, hrt, hoauth]

theorem token_hit (env : Env) (db : Db) (tr : Trace) (t : String)
    (ht : db.settings.lookup "access_token" = some t) :
    AuthProvider.token env db tr = (Except.ok t, db, tr) := by
  simp only [AuthProvider.token, loadSetting, ht]

theorem fetch_chunk_happy (env : Env) (now : Int) (cs : List String) (db : Db) (tr : Trace)
    (tok : String)
    (hlen : cs.length ≤ 50)
    (htok : db.settings.lookup "access_token" = some tok)
    (hfetch : env.fetchF tr.fetchCalls.length cs = Except.ok (cs.map mkJson)) :
    ∃ g, fetch_chunk env now db tr cs =
      (Except.ok (cs.map mkGc), { db with geocaches := g },
       { tr with fetchCalls := tr.fetchCalls ++ [(tok, cs)] }) := by
  obtain ⟨g, hg⟩ := saveAll_mkJson now cs db
  refine ⟨g, ?_⟩
  have hif : ¬(cs.length > BATCH_SIZE) := by
    rw [BATCH_SIZE]
    omega
  rw [fetch_chunk]
  simp only [fetch_chunk_go, token_hit env db tr tok htok, Groundspeak.fetch, if_neg hif,
    hfetch, hg]

theorem chunksGo_join {α : Type} (n : ℕ) (hn : 0 < n) :
    ∀ (fuel : ℕ) (l : List α), l.length ≤ fuel → (chunksGo n fuel l).flatten = l := by
  intro fuel
  induction fuel with
  | zero =>
    intro l hl
    cases l with
    | nil => rfl
    | cons x xs => simp at hl
  | succ f ih =>
    intro l hl
    cases l with
    | nil => rfl
    | cons x xs =>
      rw [chunksGo, List.flatten_cons]
      rw [ih ((x :: xs).drop n) (by simp only [List.length_drop, List.length_cons]; simp at hl; omega)]
      exact List.take_append_drop n (x :: xs)

theorem chunks_flatten {α : Type} (n : ℕ) (hn : 0 < n) (l : List α) : (chunks n l).flatten = l :=
  chunksGo_join n hn l.length l le_rfl

theorem chunksGo_mem {α : Type} (n : ℕ) (hn : 0 < n) :
    ∀ (fuel : ℕ) (l : List α) (ch : List α), l.length ≤ fuel → ch ∈ chunksGo n fuel l →
      ch.length ≤ n ∧ ch ≠ [] := by
  intro fuel
  induction fuel with
  | zero =>
    intro l ch hl hmem
    cases l with
    | nil => simp [chunksGo] at hmem
    | cons x xs => simp at hl
  | succ f ih =>
    intro l ch hl hmem
    cases l with
    | nil => simp [chunksGo] at hmem
    | cons x xs =>
      rw [chunksGo, List.mem_cons] at hmem
      rcases hmem with rfl | hmem
      · constructor
        · simp only [List.length_take]
          omega
        · obtain ⟨m, rfl⟩ : ∃ m, n = m + 1 := ⟨n - 1, by omega⟩
          simp [List.take_cons]
      · exact ih ((x :: xs).drop n) ch
          (by simp only [List.length_drop, List.length_cons]; simp at hl; omega) hmem

theorem chunks_mem {α : Type} (n : ℕ) (hn : 0 < n) (l : List α) (ch : List α)
    (h : ch ∈ chunks n l) : ch.length ≤ n ∧ ch ≠ [] :=
  chunksGo_mem n hn l.length l ch le_rfl h

theorem fetchChunks_happy (env : Env) (now : Int) (chs : List (List String))
    (henv : ∀ i cs, env.fetchF i cs = Except.ok (cs.map mkJson)) :
    ∀ (db : Db) (tr : Trace) (tok : String),
      (∀ ch ∈ chs, ch.length ≤ 50) →
      db.settings.lookup "access_token" = some tok →
      ∃ g, fetchChunks env now chs db tr =
        (Except.ok ((chs.flatMap fun ch => ch.map mkGc)),
         { db with geocaches := g },
         { tr with fetchCalls := tr.fetchCalls ++ chs.map fun ch => (tok, ch) }) := by
  induction chs with
  | nil =>
    intro db tr tok _ _
    exact ⟨db.geocaches, by simp [fetchChunks]⟩
  | cons ch rest ih =>
    intro db tr tok hlen htok
    obtain ⟨g1, h1⟩ := fetch_chunk_happy env now ch db tr tok
      (hlen ch (List.mem_cons_self ..)) htok (henv _ _)
    obtain ⟨g2, h2⟩ := ih { db with geocaches := g1 }
      { tr with fetchCalls := tr.fetchCalls ++ [(tok, ch)] } tok
      (fun c hc => hlen c (List.mem_cons_of_mem _ hc)) htok
    refine ⟨g2, ?_⟩
    simp only [fetchChunks, h1, h2]
    simp [List.append_assoc]

theorem saveAll_settings (now : Int) (js : List Json) :
    ∀ db : Db, (saveAll db now js).2.settings = db.settings := by
  induction js with
  | nil => intro db; rfl
  | cons j rest ih =>
    intro db
    have hsg := save_geocache_settings db now j
    rw [saveAll]
    rcases hs : save_geocache db now j with ⟨res, db1⟩
    rw [hs] at hsg
    rcases res with e | gc
    · exact hsg
    · have h2 := ih db1
      rcases hsa : saveAll db1 now rest with ⟨res2, db2⟩
      rw [hsa] at h2
      show (match saveAll db1 now rest with
        | (Except.error e, db2) => (Except.error e, db2)
        | (Except.ok gcs, db2) => (Except.ok (gc :: gcs), db2)).2.settings = db.settings
      rw [hsa]
      rcases res2 with e2 | gcs
      · exact h2.trans hsg
      · exact h2.trans hsg

/-- Claim C5: `get` chunks its misses into consecutive groups of at most
`BATCH_SIZE = 50` codes, in input order, and makes exactly one upstream
detail call per chunk; an input of 51 all-miss codes therefore makes exactly
two calls, of 50 and 1 codes (see the witness); and the upstream adapter
rejects any single call of more than 50 codes before any network traffic. -/
theorem get_batches_misses_in_50s (now : Int) (codes : List String) :
    (chunks BATCH_SIZE codes).flatten = codes
    ∧ (∀ ch ∈ chunks BATCH_SIZE codes, ch.length ≤ 50 ∧ ch ≠ [])
    ∧ (Cache.get happyEnv now seededDb Trace.empty codes).2.2.fetchCalls.map Prod.snd
        = chunks BATCH_SIZE codes
    ∧ (Cache.get happyEnv now seededDb Trace.empty codes).1 = Except.ok (codes.map mkGc)
    ∧ (∀ (cs : List String) (tr : Trace) (tok : String), 50 < cs.length →
        (Groundspeak.fetch happyEnv tr tok cs).1 = Except.error GsError.unknown) := by
  have h50 : (0 : ℕ) < BATCH_SIZE := by decide
  have hchlen : ∀ ch ∈ chunks BATCH_SIZE codes, ch.length ≤ 50 :=
    fun ch hch => (chunks_mem BATCH_SIZE h50 codes ch hch).1
  have hmiss : (codes.filter fun c => (load_geocache seededDb c (now - SEVEN_DAYS)).isNone)
      = codes :=
    List.filter_eq_self.mpr fun c _ => rfl
  have hhit : (codes.filterMap fun c => load_geocache seededDb c (now - SEVEN_DAYS)) = [] :=
    List.filterMap_eq_nil_iff.mpr fun c _ => rfl
  have hget : (Cache.get happyEnv now seededDb Trace.empty codes).2.2.fetchCalls.map Prod.snd
        = chunks BATCH_SIZE codes
      ∧ (Cache.get happyEnv now seededDb Trace.empty codes).1 = Except.ok (codes.map mkGc) := by
    by_cases hc : codes = []
    · subst hc
      exact ⟨rfl, rfl⟩
    · obtain ⟨g, hg⟩ := fetchChunks_happy happyEnv now (chunks BATCH_SIZE codes)
        (fun i cs => rfl) seededDb Trace.empty "T" hchlen rfl
      have hne : codes.isEmpty = false := by
        cases codes with
        | nil => exact absurd rfl hc
        | cons a as => rfl
      have hflat : ((chunks BATCH_SIZE codes).flatMap fun ch => ch.map mkGc)
          = codes.map mkGc := by
        rw [List.flatMap_def]
        rw [show (List.map (fun ch => List.map mkGc ch) (chunks BATCH_SIZE codes))
            = List.map (List.map mkGc) (chunks BATCH_SIZE codes) from rfl]
        rw [← List.map_flatten, chunks_flatten BATCH_SIZE h50]
      constructor
      · simp only [Cache.get, hmiss, hhit, hne, Bool.false_eq_true, if_false, hg]
        simp [List.map_map, Function.comp_def, Trace.empty]
      · simp only [Cache.get, hmiss, hhit, hne, Bool.false_eq_true, if_false, hg, hflat]
        simp
  refine ⟨chunks_flatten BATCH_SIZE h50 codes,
    fun ch hch => chunks_mem BATCH_SIZE h50 codes ch hch, hget.1, hget.2, ?_⟩
  intro cs tr tok hlen
  rw [Groundspeak.fetch, if_pos (by rw [BATCH_SIZE]; omega)]

/-- Witness for C5: 51 all-miss codes produce exactly two detail calls, of 50
and 1 codes, in input order. -/
theorem get_batches_51_witness :
    (chunks BATCH_SIZE (List.replicate 51 "GCA")).map List.length = [50, 1]
    ∧ (Cache.get happyEnv 0 seededDb Trace.empty (List.replicate 51 "GCA")).2.2.fetchCalls.map
        Prod.snd = chunks BATCH_SIZE (List.replicate 51 "GCA") := by
  refine ⟨by decide, (get_batches_misses_in_50s 0 (List.replicate 51 "GCA")).2.2.1⟩

/-- Claim C4: a failed first detail fetch triggers exactly one token refresh
whose result is persisted to the settings table before the single retry,
which runs with the refreshed bearer token; if the retried fetch also fails,
`fetch_chunk` returns `Error::Geocaching` and no third fetch is attempted.
The hypotheses fix the run: a stored token pair, a first fetch that fails and
an OAuth endpoint that rotates to `(a2, r2)`. -/
theorem fetch_chunk_refresh_retry
    (env : Env) (now : Int) (db : Db) (codes : List String)
    (t rt a2 r2 : String) (e : GsError)
    (hlen : codes.length ≤ 50)
    (htok : db.settings.lookup "access_token" = some t)
    (hrt : db.settings.lookup "refresh_token" = some rt)
    (hfail : env.fetchF 0 codes = Except.error e)
    (hoauth : env.oauth rt = Except.ok (a2, r2)) :
    (∀ payload : List Json, env.fetchF 1 codes = Except.ok payload →
        (fetch_chunk env now db Trace.empty codes).2.2.fetchCalls.map Prod.fst = [t, a2]
        ∧ (fetch_chunk env now db Trace.empty codes).2.2.refreshes = 1
        ∧ (fetch_chunk env now db Trace.empty codes).2.1.settings.lookup "access_token"
            = some a2
        ∧ (fetch_chunk env now db Trace.empty codes).2.1.settings.lookup "refresh_token"
            = some r2)
    ∧ (∀ (e2 : GsError) (a3 r3 : String),
        env.fetchF 1 codes = Except.error e2 → env.oauth r2 = Except.ok (a3, r3) →
        (fetch_chunk env now db Trace.empty codes).1 = Except.error CacheError.geocaching
        ∧ (fetch_chunk env now db Trace.empty codes).2.2.fetchCalls.map Prod.fst = [t, a2]) := by
  have hif : ¬(codes.length > BATCH_SIZE) := by
    rw [BATCH_SIZE]
    omega
  have hacc2 : (upsert "access_token" a2 (upsert "refresh_token" r2 db.settings)).lookup
      "access_token" = some a2 := lookup_upsert_self ..
  have href2 : (upsert "access_token" a2 (upsert "refresh_token" r2 db.settings)).lookup
      "refresh_token" = some r2 := by
    rw [lookup_upsert_other _ _ _ _ (by decide)]
    exact lookup_upsert_self ..
  have hstep : fetch_chunk env now db Trace.empty codes =
      fetch_chunk_go env now codes 1
        { db with settings := upsert "access_token" a2 (upsert "refresh_token" r2 db.settings) }
        ⟨[(t, codes)], 1, []⟩ := by
    rw [fetch_chunk]
    simp only [fetch_chunk_go, token_hit env db Trace.empty t htok, Groundspeak.fetch,
      if_neg hif, hfail,
      show Trace.empty.fetchCalls = [] from rfl,
      show Trace.empty.refreshes = 0 from rfl,
      show Trace.empty.discoverCalls = [] from rfl,
      List.length_nil, List.nil_append,
      refresh_ok env _ _ rt a2 r2 hrt hoauth, Nat.zero_add]
  have htk2 := token_hit env
    { db with settings := upsert "access_token" a2 (upsert "refresh_token" r2 db.settings) }
    ⟨[(t, codes)], 1, []⟩ a2 hacc2
  constructor
  · intro payload hok
    have hset := saveAll_settings now payload
      { db with settings := upsert "access_token" a2 (upsert "refresh_token" r2 db.settings) }
    rcases hsa : saveAll
        { db with settings := upsert "access_token" a2 (upsert "refresh_token" r2 db.settings) }
        now payload with ⟨res, db2⟩
    rw [hsa] at hset
    have hrun : fetch_chunk env now db Trace.empty codes =
        (res, db2, ⟨[(t, codes), (a2, codes)], 1, []⟩) := by
      rw [hstep]
      simp only [fetch_chunk_go, htk2, Groundspeak.fetch, if_neg hif,
        List.length_cons, List.length_nil, Nat.zero_add, hok, hsa, List.cons_append,
        List.nil_append]
      rcases res with e' | gcs
      · rfl
      · rfl
    rw [hrun]
    exact ⟨rfl, rfl, hset ▸ hacc2, hset ▸ href2⟩
  · intro e2 a3 r3 herr hoauth2
    have hrf2 := refresh_ok env
      { db with settings := upsert "access_token" a2 (upsert "refresh_token" r2 db.settings) }
      ⟨[(t, codes), (a2, codes)], 1, []⟩ r2 a3 r3 href2 hoauth2
    have hrun : fetch_chunk env now db Trace.empty codes =
        (Except.error CacheError.geocaching,
         { db with settings := upsert "access_token" a3 (upsert "refresh_token" r3
             (upsert "access_token" a2 (upsert "refresh_token" r2 db.settings))) },
         ⟨[(t, codes), (a2, codes)], 2, []⟩) := by
      rw [hstep]
      simp only [fetch_chunk_go, htk2, Groundspeak.fetch, if_neg hif,
        List.length_cons, List.length_nil, Nat.zero_add, herr, List.cons_append,
        List.nil_append, hrf2]
    rw [hrun]
    exact ⟨rfl, rfl⟩

/-- Witness for C4: with a stored token pair `("A1", "R1")`, a first call
that fails and a second that succeeds, the two calls use `"A1"` then the
refreshed `"A2"`, one refresh happens, and the rotated pair is persisted. -/
theorem fetch_chunk_refresh_retry_witness :
    (fetch_chunk retryEnv 0 authDb Trace.empty ["GC1"]).2.2.fetchCalls.map Prod.fst
        = ["A1", "A2"]
    ∧ (fetch_chunk retryEnv 0 authDb Trace.empty ["GC1"]).2.2.refreshes = 1
    ∧ (fetch_chunk retryEnv 0 authDb Trace.empty ["GC1"]).2.1.settings.lookup "access_token"
        = some "A2"
    ∧ (fetch_chunk retryEnv 0 authDb Trace.empty ["GC1"]).2.1.settings.lookup "refresh_token"
        = some "R2" :=
  (fetch_chunk_refresh_retry retryEnv 0 authDb ["GC1"] "A1" "R1" "A2" "R2"
      GsError.httpRequest (by decide) rfl rfl rfl rfl).1
    [mkJson "GC1"] rfl

/-- Claim C1 (amended): a premium-only record in the upstream payload is
returned to the caller as the opaque stub, and its raw payload IS upserted
into the `geocaches` table — `save_geocache` inserts before parsing, for
every record whose `isPremiumOnly` is true (first conjunct) — so a `get` of
the same code within the 7-day window is a cache hit: it returns the stub
again and makes no upstream call (the concrete run of the last three
conjuncts). -/
theorem premium_stub_returned_and_cached :
    (∀ (db : Db) (now : Int) (v : Json) (code : String),
        (v.getKey "referenceCode").as_str = some code →
        (v.getKey "isPremiumOnly").as_bool = some true →
        save_geocache db now v =
          (Except.ok (Geocache.premium code),
           { db with geocaches := upsert code (v, now) db.geocaches }))
    ∧ (fetch_chunk premiumEnv 0 seededDb Trace.empty ["GC1"]).1
        = Except.ok [Geocache.premium "GC1"]
    ∧ (fetch_chunk premiumEnv 0 seededDb Trace.empty ["GC1"]).2.1.geocaches.lookup "GC1"
        = some (premiumJson, 0)
    ∧ (Cache.get premiumEnv 3600
          (fetch_chunk premiumEnv 0 seededDb Trace.empty ["GC1"]).2.1 Trace.empty ["GC1"]).1
        = Except.ok [Geocache.premium "GC1"]
    ∧ (Cache.get premiumEnv 3600
          (fetch_chunk premiumEnv 0 seededDb Trace.empty ["GC1"]).2.1 Trace.empty
          ["GC1"]).2.2.fetchCalls = [] := by
  refine ⟨fun db now v code h1 h2 => ?_, rfl, rfl, rfl, rfl⟩
  have hp : parse v = Except.ok (Geocache.premium code) := by
    simp [parse, h1, h2, okOr]
  rw [save_geocache, h1, hp]

/-- Counterexample for C1 as stated: after `fetch_chunk` processes the
premium-only record for `GC1`, the `geocaches` row for that code is NOT
unchanged — it was absent before and holds the raw premium payload after. -/
theorem premium_record_upserted_cx :
    seededDb.geocaches.lookup "GC1" = none
    ∧ (fetch_chunk premiumEnv 0 seededDb Trace.empty ["GC1"]).2.1.geocaches.lookup "GC1"
        = some (premiumJson, 0) :=
  ⟨rfl, rfl⟩

theorem upsertTileCode_append (qk : ℕ) (code : String) (coord : Option Coordinate) :
    ∀ l : List (ℕ × String × Option Coordinate),
      (∀ r ∈ l, ¬(r.1 = qk ∧ r.2.1 = code)) →
      upsertTileCode qk code coord l = l ++ [(qk, code, coord)] := by
  intro l
  induction l with
  | nil => intro; rfl
  | cons hd tl ih =>
    intro hno
    obtain ⟨q, c, v⟩ := hd
    rw [upsertTileCode]
    rw [if_neg (hno (q, c, v) (List.mem_cons_self ..))]
    rw [ih fun r hr => hno r (List.mem_cons_of_mem _ hr)]
    rfl

theorem store_fold (qk : ℕ) (codes : List GcCode) :
    ∀ pre : List (ℕ × String × Option Coordinate),
      (codes.map GcCode.code).Nodup →
      (∀ r ∈ pre, r.1 = qk → r.2.1 ∉ codes.map GcCode.code) →
      codes.foldl (fun acc c => upsertTileCode qk c.code c.approx_coord acc) pre
        = pre ++ codes.map fun c => (qk, c.code, c.approx_coord) := by
  induction codes with
  | nil => intro pre _ _; simp
  | cons c rest ih =>
    intro pre hnd hdisj
    simp only [List.map_cons] at hnd
    have hhead : c.code ∉ rest.map GcCode.code := (List.nodup_cons.mp hnd).1
    have htail : (rest.map GcCode.code).Nodup := (List.nodup_cons.mp hnd).2
    simp only [List.foldl_cons]
    have hc : upsertTileCode qk c.code c.approx_coord pre
        = pre ++ [(qk, c.code, c.approx_coord)] := by
      refine upsertTileCode_append qk c.code c.approx_coord pre fun r hr hand => ?_
      exact hdisj r hr hand.1 (by simp [hand.2])
    rw [hc]
    rw [ih (pre ++ [(qk, c.code, c.approx_coord)]) htail ?_]
    · simp
    · intro r hr hq
      rcases List.mem_append.mp hr with hpre | hlast
      · have := hdisj r hpre hq
        simp only [List.map_cons, List.mem_cons, not_or] at this
        exact this.2
      · have : r = (qk, c.code, c.approx_coord) := by simpa using hlast
        subst this
        exact hhead

/-- Claim C3: `discover` consults the upstream exactly when the `tiles2` row
for the tile's quadkey is absent or has `ts < now - 7d`.  A fresh row is
answered from the two tables with the stored timestamp and without touching
the upstream or the database; a stale or missing row makes one upstream
call, after which the header holds `ts = now` and the companion table holds
exactly the freshly discovered codes. -/
theorem discover_freshness (env : Env) (now : Int) (db : Db) (tr : Trace) (tile : Tile) :
    (∀ ts : Int, db.tiles2.lookup tile.quadkey = some ts → now - SEVEN_DAYS ≤ ts →
        Cache.discover env now db tr tile = (Except.ok (ts, load_gccodes db tile), db, tr))
    ∧ ((db.tiles2.lookup tile.quadkey = none ∨
        (∃ ts : Int, db.tiles2.lookup tile.quadkey = some ts ∧ ts < now - SEVEN_DAYS)) →
        (Cache.discover env now db tr tile).2.2.discoverCalls = tr.discoverCalls ++ [tile]
        ∧ ∀ codes : List GcCode, env.discoverF tile = Except.ok codes →
            Cache.discover env now db tr tile =
              (Except.ok (now, codes), store_gccodes db now tile codes,
               { tr with discoverCalls := tr.discoverCalls ++ [tile] })
            ∧ (store_gccodes db now tile codes).tiles2.lookup tile.quadkey = some now
            ∧ ((codes.map GcCode.code).Nodup →
                load_gccodes (store_gccodes db now tile codes) tile = codes)) := by
  constructor
  · intro ts hlk hts
    simp only [Cache.discover, hlk, if_pos hts]
  · intro hstale
    have hnone : (match db.tiles2.lookup tile.quadkey with
        | some ts => if now - SEVEN_DAYS ≤ ts then some ts else none
        | none => none) = (none : Option Int) := by
      rcases hstale with h | ⟨ts, hlk, hts⟩
      · rw [h]
      · rw [hlk]
        show (if now - SEVEN_DAYS ≤ ts then some ts else none) = none
        rw [if_neg (by omega)]
    constructor
    · simp only [Cache.discover, hnone]
      rcases hd : env.discoverF tile with e | codes
      · rfl
      · rfl
    · intro codes hcodes
      refine ⟨by simp only [Cache.discover, hnone, hcodes], ?_, ?_⟩
      · exact lookup_upsert_self ..
      · intro hnd
        have hclean : ∀ r ∈ (db.tiles_codes.filter fun row => row.1 ≠ tile.quadkey),
            r.1 = tile.quadkey → r.2.1 ∉ codes.map GcCode.code := by
          intro r hr hq
          have := (List.mem_filter.mp hr).2
          simp only [hq, decide_eq_true_eq] at this
          exact absurd rfl this
        rw [load_gccodes]
        show ((codes.foldl (fun acc c => upsertTileCode tile.quadkey c.code c.approx_coord acc)
            (db.tiles_codes.filter fun row => row.1 ≠ tile.quadkey)).filterMap fun row =>
            if row.1 = tile.quadkey then some ⟨row.2.1, row.2.2⟩ else none) = codes
        rw [store_fold tile.quadkey codes _ hnd hclean]
        rw [List.filterMap_append]
        have hleft : ((db.tiles_codes.filter fun row => row.1 ≠ tile.quadkey).filterMap
            fun row => if row.1 = tile.quadkey then some (⟨row.2.1, row.2.2⟩ : GcCode)
              else none) = [] := by
          refine List.filterMap_eq_nil_iff.mpr fun r hr => ?_
          have := (List.mem_filter.mp hr).2
          rw [if_neg (by simpa using this)]
        have hright : ((codes.map fun c => (tile.quadkey, c.code, c.approx_coord)).filterMap
            fun row => if row.1 = tile.quadkey then some (⟨row.2.1, row.2.2⟩ : GcCode)
              else none) = codes := by
          rw [List.filterMap_map]
          have : ((fun row : ℕ × String × Option Coordinate =>
              if row.1 = tile.quadkey then some (⟨row.2.1, row.2.2⟩ : GcCode) else none) ∘
              fun c : GcCode => (tile.quadkey, c.code, c.approx_coord))
              = fun c : GcCode => some c := by
            funext c
            simp [Function.comp]
          rw [this]
          exact List.filterMap_some codes
        rw [hleft, hright, List.nil_append]

/-- Witness for C3: a `tiles2` row stored at `ts = 1000` queried at exactly
`now = 1000 + 7d` (the freshness boundary) is a hit: the stored codes and
the stored timestamp come back and the trace shows no upstream call. -/
theorem discover_freshness_witness :
    Cache.discover tileEnv (1000 + SEVEN_DAYS) tileDb Trace.empty ⟨3, 2, 2⟩
      = (Except.ok (1000, [⟨"GC9", none⟩]), tileDb, Trace.empty) :=
  (discover_freshness tileEnv (1000 + SEVEN_DAYS) tileDb Trace.empty ⟨3, 2, 2⟩).1
    1000 rfl (by decide)
